import Mathlib

/-!
Verification of the LOGKPREDICT core pipeline (logk_lib).

This file gives a shallow embedding of the pure computational core of the
repository's `logk_lib` package:

* `molecular_processing.py`: the transition-metal classifier
  `is_transition_metal`, the dative-bond normalizer `set_dative_bonds`
  (with `_convert_bonds_to_dative`), the SMILES cleanup `clean_smiles`
  (two ordered regex substitutions), and the fixed descriptor-name table
  `SELECTED_DESCRIPTORS`.
* `predictor.py`: the feature parser `_parse_features`, the MOL-block
  extractor `_extract_mol_block`, the feature assembler `_combine_features`
  (rounding, concatenation, numpy boolean-mask selection), the fixed
  `FEATURE_MASK`, and the fixed CSV feature header of `_create_input_files`.

Python strings are modelled as `List Char` (the core `String` functions do
not reduce well in the kernel and the repository only needs character-level
operations).  Python floats are modelled as exact rationals `ℚ`; Python's
`round(x, 4)` is round-half-to-even at 4 decimal places, which is the
`roundHalfEven` function below on exact values.  Fallible code returns
`Except Err`, where `Err` mirrors the exception taxonomy of
`exceptions.py` plus the raw Python/numpy exceptions (`IndexError`,
`ValueError`) that the assembler can leak.
-/

/-- Error kinds.  The first five mirror the `LogKPredictError` subclasses of
`exceptions.py`; `pyIndexError` and `pyValueError` stand for raw Python
exceptions (`IndexError` from numpy boolean indexing, `ValueError` from
`float(...)`) that are not caught anywhere in `predictor.py`'s
`_combine_features`. -/
inductive Err where
  | invalidInput
  | molecularProcessing
  | chemprop
  | modelNotFound
  | environmentMissing
  | pyIndexError
  | pyValueError
deriving DecidableEq, Repr

/-- True for the domain error kinds (subclasses of `LogKPredictError` in
`exceptions.py`); false for raw, uncaught Python exceptions. -/
def Err.isDomainError : Err → Bool
  | .pyIndexError => false
  | .pyValueError => false
  | _ => true

/-! ### molecular_processing.py : constants and the transition-metal classifier -/

/-- Constant `HYDROGEN = 1`. -/
def HYDROGEN : Nat := 1

/-- Constant `BORON_TO_FLUORINE_RANGE = (5, 9)`. -/
def BORON_TO_FLUORINE_RANGE : Nat × Nat := (5, 9)

/-- Constant `SILICON_TO_CHLORINE_RANGE = (14, 17)`. -/
def SILICON_TO_CHLORINE_RANGE : Nat × Nat := (14, 17)

/-- Constant `BROMINE = 35`. -/
def BROMINE : Nat := 35

/-- Constant `DEFAULT_DONOR_ATOMS = (7, 8)` (nitrogen, oxygen). -/
def DEFAULT_DONOR_ATOMS : List Nat := [7, 8]

/-- Predicate `MolecularProcessor.is_transition_metal`, as a function of the atom's
atomic number (`atom.GetAtomicNum()`), translated line by line from
`molecular_processing.py`. -/
def is_transition_metal (atomic_num : Nat) : Bool :=
  let is_hydrogen := atomic_num == HYDROGEN
  let is_boron_to_fluorine :=
    decide (BORON_TO_FLUORINE_RANGE.1 ≤ atomic_num) &&
      decide (atomic_num ≤ BORON_TO_FLUORINE_RANGE.2)
  let is_silicon_to_chlorine :=
    decide (SILICON_TO_CHLORINE_RANGE.1 ≤ atomic_num) &&
      decide (atomic_num ≤ SILICON_TO_CHLORINE_RANGE.2)
  let is_bromine := atomic_num == BROMINE
  !(is_hydrogen || is_boron_to_fluorine || is_silicon_to_chlorine || is_bromine)

/-! ### molecular_processing.py : descriptor table and the dative-bond normalizer -/

/-- The literal `MolecularProcessor.SELECTED_DESCRIPTORS` list of RDKit
descriptor names, copied verbatim from `molecular_processing.py`. -/
def SELECTED_DESCRIPTORS : List String :=
  ["PEOE_VSA1", "PEOE_VSA10", "PEOE_VSA11", "PEOE_VSA12", "PEOE_VSA13",
   "PEOE_VSA14", "PEOE_VSA2", "PEOE_VSA3", "PEOE_VSA4", "PEOE_VSA5",
   "PEOE_VSA6", "PEOE_VSA7", "PEOE_VSA8", "PEOE_VSA9", "RingCount",
   "SMR_VSA1", "SMR_VSA10", "SMR_VSA2", "SMR_VSA3", "SMR_VSA4",
   "SMR_VSA5", "SMR_VSA6", "SMR_VSA7", "SMR_VSA8", "SMR_VSA9",
   "SlogP_VSA1", "SlogP_VSA10", "SlogP_VSA11", "SlogP_VSA12", "SlogP_VSA2",
   "SlogP_VSA3", "SlogP_VSA4", "SlogP_VSA5", "SlogP_VSA6", "SlogP_VSA7",
   "SlogP_VSA8", "SlogP_VSA9", "TPSA", "VSA_EState1", "VSA_EState10"]

/-- Descriptor computation `MolecularProcessor.calculate_descriptors`: RDKit's
`MolecularDescriptorCalculator(SELECTED_DESCRIPTORS).CalcDescriptors(mol)`
returns one numeric value per configured descriptor name, in the configured
order.  The per-name computation is external (RDKit), so it is abstracted as
`descFn`; the repository's contribution is the fixed name list and order. -/
def calculate_descriptors (descFn : String → ℚ) : List ℚ :=
  SELECTED_DESCRIPTORS.map descFn

/-- RDKit bond classifications used by the pipeline.  `dative` is
`Chem.BondType.DATIVE`; the remaining kinds are only carried around. -/
inductive BondType where
  | single
  | double
  | triple
  | aromatic
  | dative
deriving DecidableEq, Repr

/-- A bond of the RDKit molecular graph: begin-atom index, end-atom index and
classification.  RDKit dative bonds are directional, begin = donor,
end = acceptor. -/
structure Bond where
  beginIdx : Nat
  endIdx : Nat
  btype : BondType
deriving DecidableEq, Repr

/-- The molecular graph (`Chem.RWMol`): atomic numbers indexed by atom index,
plus the bond list.  Coordinates, charges and cached sanitization flags are
not modelled; `set_dative_bonds` only reads atomic numbers and rewrites
bonds, and its sanitization step (`Chem.SanitizeMol` with `catchErrors=True`)
recomputes cached flags without editing atoms or bonds. -/
structure MolGraph where
  atomicNum : List Nat
  bonds : List Bond
deriving DecidableEq, Repr

/-- Atomic number of atom `i` (out-of-range reads do not occur on RDKit
graphs, whose bonds always reference existing atoms). -/
def atomicAt (atoms : List Nat) (i : Nat) : Nat :=
  atoms.getD i 0

/-- One bond's treatment inside `MolecularProcessor._convert_bonds_to_dative`:
the loop `for metal in metals: for neighbor in metal.GetNeighbors(): if
neighbor.GetAtomicNum() in donor_atoms: RemoveBond; AddBond(neighbor, metal,
DATIVE)` touches a bond exactly when one endpoint is a classified transition
metal and the other endpoint's atomic number is in `donor_atoms`, and
replaces it by a dative bond with begin = donor, end = metal.  (With the
default donor set {7, 8} no donor is itself classified as a metal, so each
bond is rewritten at most once and the loop order is irrelevant; RDKit's
remove-then-add renumbers the bond, which does not affect the graph's
structural content.) -/
def convertBondToDative (atoms : List Nat) (donor_atoms : List Nat) (b : Bond) : Bond :=
  if is_transition_metal (atomicAt atoms b.beginIdx) &&
      donor_atoms.contains (atomicAt atoms b.endIdx) then
    ⟨b.endIdx, b.beginIdx, .dative⟩
  else if is_transition_metal (atomicAt atoms b.endIdx) &&
      donor_atoms.contains (atomicAt atoms b.beginIdx) then
    ⟨b.beginIdx, b.endIdx, .dative⟩
  else b

/-- Normalizer `MolecularProcessor.set_dative_bonds`: copy the graph (`Chem.RWMol(mol)`),
relax the property cache, rewrite every metal-donor bond as a dative bond
(`_convert_bonds_to_dative`), and re-sanitize.  The sanitize step
(`_sanitize_molecule`, `catchErrors=True`) recomputes cached chemistry flags
and is the identity on the structural content modelled here. -/
def set_dative_bonds (g : MolGraph) (donor_atoms : List Nat) : MolGraph :=
  { g with bonds := g.bonds.map (convertBondToDative g.atomicNum donor_atoms) }

/-- Whether a bond joins a classified transition metal and a donor atom. -/
def isMetalDonorBond (atoms : List Nat) (donor_atoms : List Nat) (b : Bond) : Bool :=
  (is_transition_metal (atomicAt atoms b.beginIdx) &&
      donor_atoms.contains (atomicAt atoms b.endIdx)) ||
    (is_transition_metal (atomicAt atoms b.endIdx) &&
      donor_atoms.contains (atomicAt atoms b.beginIdx))

/-- Whether a graph has no metal-donor bond at all. -/
def noMetalDonorBond (g : MolGraph) (donor_atoms : List Nat) : Bool :=
  g.bonds.all (fun b => !(isMetalDonorBond g.atomicNum donor_atoms b))

/-! ### molecular_processing.py : clean_smiles

`clean_smiles` applies, in order, the two Python regex substitutions

* `re.sub(r"(->\[[A-Z][a-z]?)(H\d?)", r"\1", smiles)` and
* `re.sub(r"(H\d?)(\+\d?\]<-)", r"\2", cleaned)`.

Both patterns are deterministic for a backtracking engine: in pattern 1 the
optional `[a-z]` can only be kept when an `H` follows it (no lowercase letter
is `H`), and in pattern 2 the optional digit of `H\d?` can only be kept when
a `+` follows it (no digit is `+`).  `re.sub` scans left to right, replaces
every non-overlapping match, continues scanning right after each match, and
advances one character when no match starts at the current position.  The
matchers below return, on a match at the head of the list, the replacement
text together with the remainder of the input after the match.
-/

/-- Consume one optional ASCII digit (the `\d?` at the end of both
hydrogen-token patterns). -/
def dropOptDigit : List Char → List Char
  | [] => []
  | d :: rest => if d.isDigit then rest else d :: rest

/-- Match of `(->\[[A-Z][a-z]?)(H\d?)` at the head of the input; returns the
replacement (group 1) and the input remaining after the match. -/
def matchAt1 : List Char → Option (List Char × List Char)
  | '-' :: '>' :: '[' :: u :: rest =>
    if u.isUpper then
      match rest with
      | c1 :: c2 :: rest2 =>
        if c1.isLower && (c2 == 'H') then
          some (['-', '>', '[', u, c1], dropOptDigit rest2)
        else if c1 == 'H' then
          some (['-', '>', '[', u], dropOptDigit (c2 :: rest2))
        else none
      | [c1] => if c1 == 'H' then some (['-', '>', '[', u], []) else none
      | [] => none
    else none
  | _ => none

/-- Match of `\+\d?\]<-` at the head of the input; returns the matched text
and the input remaining after it. -/
def matchPlusClose : List Char → Option (List Char × List Char)
  | '+' :: ']' :: '<' :: '-' :: rest => some (['+', ']', '<', '-'], rest)
  | '+' :: d :: ']' :: '<' :: '-' :: rest =>
    if d.isDigit then some (['+', d, ']', '<', '-'], rest) else none
  | _ => none

/-- Match of `(H\d?)(\+\d?\]<-)` at the head of the input; returns the
replacement (group 2) and the input remaining after the match. -/
def matchAt2 : List Char → Option (List Char × List Char)
  | 'H' :: rest =>
    match rest with
    | d :: rest2 =>
      if d.isDigit then matchPlusClose rest2
      else matchPlusClose (d :: rest2)
    | [] => none
  | _ => none

/-- One `re.sub` pass driven by a head matcher, with fuel.  Each step either
replaces a match and continues after it, or copies one character; every step
consumes at least one input character, so fuel `= input length` never runs
out (the fuel-exhausted branch returns the rest unchanged). -/
def reSubAux (step : List Char → Option (List Char × List Char)) :
    Nat → List Char → List Char
  | 0, l => l
  | _ + 1, [] => []
  | n + 1, c :: cs =>
    match step (c :: cs) with
    | some (emit, rest) => emit ++ reSubAux step n rest
    | none => c :: reSubAux step n cs

/-- Substitution pass of pattern 1 over the whole string (`re.sub`). -/
def sub1 (l : List Char) : List Char := reSubAux matchAt1 l.length l

/-- Substitution pass of pattern 2 over the whole string (`re.sub`). -/
def sub2 (l : List Char) : List Char := reSubAux matchAt2 l.length l

/-- Cleanup `MolecularProcessor.clean_smiles`: the first substitution, then the
second, in this exact order. -/
def clean_smiles (smiles : List Char) : List Char := sub2 (sub1 smiles)

/-- Whether a head matcher matches at some position of the input. -/
def hasMatch (step : List Char → Option (List Char × List Char)) : List Char → Bool
  | [] => false
  | c :: cs => (step (c :: cs)).isSome || hasMatch step cs

/-- Whether pattern 1 matches anywhere in the input. -/
def hasPat1 (l : List Char) : Bool := hasMatch matchAt1 l

/-- Whether pattern 2 matches anywhere in the input. -/
def hasPat2 (l : List Char) : Bool := hasMatch matchAt2 l

/-! ### predictor.py : constants -/

/-- Constant `EXPECTED_FEATURES`: the 12 feature names documented for the input
feature line. -/
def EXPECTED_FEATURES : List String :=
  ["logK(I=0.0)", "logK_in", "I_in", "Z_lig", "Z_met", "nrot",
   "met_r", "met_CN", "E_strain", "G_solv", "rdhE", "rdhC"]

/-- Constant `FEATURE_MASK`: the literal boolean mask built from `_MASK_STR` in
`predictor.py` (token for token). -/
def FEATURE_MASK : List Bool :=
  [false, true, false, false, true, true, true, true, true, true,
   true, false, false, true, true, true, true, false, true, true,
   true, true, false, true, true, true, false, false, false, false,
   false, false, false, false, true, false, false, false, false, false,
   false, true, false, false, false, false, false, false, false, false]

/-- The fixed `feature_header` written by `_create_input_files` into the
features CSV, split at its comma-space separators into the 10 feature names
it declares. -/
def FEATURES_CSV_HEADER : List String :=
  ["I_in", "Z_lig", "Z_met", "nrot", "met_r", "met_CN",
   "E_strain", "G_solv", "rdhE", "rdhC"]

/-! ### predictor.py : rounding and feature assembly -/

/-- Python's builtin `round(x, 4)` on exact values: the closest multiple of
`10^-4`, ties to the even multiple (banker's rounding, the rule documented
for Python 3's `round`).  Computed on the rational `q = q.num / q.den`
scaled by `10^4`, entirely in integer arithmetic: `f` is the floor of the
scaled value and `r` its remainder. -/
def round4 (q : ℚ) : ℚ :=
  let n : ℤ := q.num * 10000
  let d : ℤ := (q.den : ℤ)
  let f : ℤ := n / d
  let r : ℤ := n % d
  let k : ℤ :=
    if 2 * r < d then f
    else if d < 2 * r then f + 1
    else if f % 2 = 0 then f else f + 1
  (k : ℚ) / 10000

/-- numpy boolean indexing `v[mask]` for equal lengths: keep exactly the
entries at the positions where the mask is true, in order. -/
def maskSelect : List ℚ → List Bool → List ℚ
  | [], _ => []
  | _, [] => []
  | x :: xs, b :: bs => if b then x :: maskSelect xs bs else maskSelect xs bs

/-- numpy boolean indexing `all_features[FEATURE_MASK]` including its error
behavior: when the boolean mask's length differs from the indexed array's
length, numpy raises `IndexError` ("boolean index did not match indexed
array"), which `_combine_features` does not catch. -/
def numpyBoolIndex (v : List ℚ) (m : List Bool) : Except Err (List ℚ) :=
  if m.length = v.length then .ok (maskSelect v m) else .error .pyIndexError

/-- The CombinedFeatureVector of `_combine_features`: the rounded scalar
features followed by the descriptor values, before the mask is applied. -/
def combinedFeatureVector (features descriptors : List ℚ) : List ℚ :=
  features.map round4 ++ descriptors

/-- Assembler `LogKPredictor._combine_features`, on the numeric contents of its
arguments.  The Python function formats the rounded features and the
descriptor string into `f"{feature_str}, {descriptors_str}"`, splits that
string on `", "` and maps `float` over the pieces; for non-empty inputs this
string round trip is value-preserving and yields exactly
`combinedFeatureVector features descriptors`.  When either side is empty,
the join/split produces an empty token and `float("")` raises an uncaught
`ValueError` before any indexing happens.  The mask application is numpy
boolean indexing with the fixed `FEATURE_MASK` (uncaught `IndexError` on any
length mismatch). -/
def combine_features (features descriptors : List ℚ) : Except Err (List ℚ) :=
  if features.isEmpty || descriptors.isEmpty then .error .pyValueError
  else numpyBoolIndex (combinedFeatureVector features descriptors) FEATURE_MASK

/-! ### predictor.py : feature-line parsing and MOL-block extraction -/

/-- Python `str.split()` with no separator (as used by
`feature_line.strip().split()`): the maximal non-whitespace runs, with no
empty tokens; the preceding `strip()` is subsumed by this splitting rule.
`acc` accumulates the current token in reverse. -/
def pySplitWsAux : List Char → List Char → List (List Char)
  | [], acc => if acc.isEmpty then [] else [acc.reverse]
  | c :: cs, acc =>
    if c.isWhitespace then
      if acc.isEmpty then pySplitWsAux cs [] else acc.reverse :: pySplitWsAux cs []
    else pySplitWsAux cs (c :: acc)

/-- Whitespace tokenization of a feature line. -/
def pySplitWs (l : List Char) : List (List Char) := pySplitWsAux l []

/-- The list comprehension `[float(val) for val in selected_features]` of
`_parse_features`, with the surrounding `try`/`except`: Python's `float` is
external, abstracted as `pf`; a token `float` cannot parse raises
`ValueError`, which `_parse_features` catches and converts to
`InvalidInputError`.  Evaluation is left to right and stops at the first
failing token. -/
def parseAll (pf : List Char → Option ℚ) : List (List Char) → Except Err (List ℚ)
  | [] => .ok []
  | t :: ts =>
    match pf t with
    | none => .error .invalidInput
    | some v =>
      match parseAll pf ts with
      | .error e => .error e
      | .ok vs => .ok (v :: vs)

/-- Parser `LogKPredictor._parse_features`: split the line on whitespace, drop the
first two tokens (`feature_values[2:]`, which is empty rather than an error
when fewer than two tokens exist), and parse the rest as floats. -/
def parse_features (pf : List Char → Option ℚ) (feature_line : List Char) :
    Except Err (List ℚ) :=
  parseAll pf ((pySplitWs feature_line).drop 2)

/-- Python `str.strip()` over the character list. -/
def pyStrip (l : List Char) : List Char :=
  ((l.dropWhile Char.isWhitespace).reverse.dropWhile Char.isWhitespace).reverse

/-- The record terminator line `$$$$`. -/
def dollarTerminator : List Char := ['$', '$', '$', '$']

/-- Extractor `LogKPredictor._extract_mol_block`: collect lines until a line whose
`strip()` equals `$$$$` (the loop `for line in lines: if line.strip() ==
"$$$$": break; mol_lines.append(line)`), raise `InvalidInputError` only when
nothing was collected, and otherwise join the collected lines (readlines
keeps each line's newline, so `"".join` preserves the block; the model joins
the line contents directly). -/
def extract_mol_block (lines : List (List Char)) : Except Err (List Char) :=
  let mol_lines := lines.takeWhile (fun l => !(pyStrip l == dollarTerminator))
  if mol_lines.isEmpty then .error .invalidInput else .ok mol_lines.flatten

/-- The input-validation phase of `LogKPredictor.predict_from_file`: after
reading `lines`, the function raises `InvalidInputError` when fewer than 3
lines are present, parses the feature line `lines[1]`, extracts the MOL
block from `lines[2:]`, and hands the pair to `self.predict` (external from
here on: RDKit processing and the Chemprop subprocess). -/
def predict_from_file_input (pf : List Char → Option ℚ) (lines : List (List Char)) :
    Except Err (List ℚ × List Char) :=
  if lines.length < 3 then .error .invalidInput
  else
    match parse_features pf (lines.getD 1 []) with
    | .error e => .error e
    | .ok features =>
      match extract_mol_block (lines.drop 2) with
      | .error e => .error e
      | .ok mol_block => .ok (features, mol_block)

/-- A parse-function stub used only to instantiate theorems at concrete
inputs. -/
def parseStub : List Char → Option ℚ := fun _ => some 0

/-! ### Claims about the assembled feature vector -/

/-- A concrete 12-token feature line ("a b 1 1 1 1 1 1 1 1 1 1") used to
instantiate theorems. -/
def c4_line : List Char :=
  ['a', ' ', 'b', ' ', '1', ' ', '1', ' ', '1', ' ', '1', ' ', '1',
   ' ', '1', ' ', '1', ' ', '1', ' ', '1', ' ', '1']

/-! ### Theorems -/

/-- Claim C3: `is_transition_metal` returns false exactly on
atomic number 1, the closed ranges [5,9] and [14,17], and 35, and true
everywhere else; it is total (a Lean function of `Nat`). -/
theorem c3_is_transition_metal_characterization (n : Nat) :
    is_transition_metal n = false ↔
      (n = 1 ∨ (5 ≤ n ∧ n ≤ 9) ∨ (14 ≤ n ∧ n ≤ 17) ∨ n = 35) := by
  simp only [is_transition_metal, HYDROGEN, BORON_TO_FLUORINE_RANGE,
    SILICON_TO_CHLORINE_RANGE, BROMINE, Bool.not_eq_false', Bool.or_eq_true,
    beq_iff_eq, Bool.and_eq_true, decide_eq_true_eq]
  omega

theorem donor_not_metal {n : Nat} (h : DEFAULT_DONOR_ATOMS.contains n = true) :
    is_transition_metal n = false := by
  simp only [DEFAULT_DONOR_ATOMS, List.contains_cons, List.contains_nil,
    Bool.or_false, Bool.or_eq_true, beq_iff_eq] at h
  rcases h with h | h <;> subst h <;> decide

theorem convertBondToDative_not_touched {atoms donors : List Nat} {b : Bond}
    (h : isMetalDonorBond atoms donors b = false) :
    convertBondToDative atoms donors b = b := by
  rw [isMetalDonorBond, Bool.or_eq_false_iff] at h
  unfold convertBondToDative
  rw [h.1, h.2]
  simp

theorem convertBondToDative_idem (atoms : List Nat) (b : Bond) :
    convertBondToDative atoms DEFAULT_DONOR_ATOMS
        (convertBondToDative atoms DEFAULT_DONOR_ATOMS b) =
      convertBondToDative atoms DEFAULT_DONOR_ATOMS b := by
  cases hc1 : (is_transition_metal (atomicAt atoms b.beginIdx) &&
      DEFAULT_DONOR_ATOMS.contains (atomicAt atoms b.endIdx)) with
  | true =>
    have h' := hc1
    rw [Bool.and_eq_true] at h'
    obtain ⟨hA, hB⟩ := h'
    have hm := donor_not_metal hB
    have e1 : convertBondToDative atoms DEFAULT_DONOR_ATOMS b =
        ⟨b.endIdx, b.beginIdx, .dative⟩ := by
      unfold convertBondToDative
      rw [hc1]
      simp
    rw [e1]
    unfold convertBondToDative
    simp [hm, hA, hB]
  | false =>
    cases hc2 : (is_transition_metal (atomicAt atoms b.endIdx) &&
        DEFAULT_DONOR_ATOMS.contains (atomicAt atoms b.beginIdx)) with
    | true =>
      have h' := hc2
      rw [Bool.and_eq_true] at h'
      obtain ⟨hA, hB⟩ := h'
      have hm := donor_not_metal hB
      have e1 : convertBondToDative atoms DEFAULT_DONOR_ATOMS b =
          ⟨b.beginIdx, b.endIdx, .dative⟩ := by
        unfold convertBondToDative
        rw [hc1, hc2]
        simp
      rw [e1]
      unfold convertBondToDative
      simp [hm, hA, hB]
    | false =>
      have e1 : convertBondToDative atoms DEFAULT_DONOR_ATOMS b = b := by
        unfold convertBondToDative
        rw [hc1, hc2]
        simp
      rw [e1, e1]

/-- Claim C6: with the default donor set, normalizing a graph with no
metal-donor bond changes no bond classification (it is the identity on the
graph), and normalization is idempotent on structural content for every
graph. -/
theorem c6_set_dative_bonds_noop_and_idem (g : MolGraph) :
    (noMetalDonorBond g DEFAULT_DONOR_ATOMS = true →
      set_dative_bonds g DEFAULT_DONOR_ATOMS = g) ∧
    set_dative_bonds (set_dative_bonds g DEFAULT_DONOR_ATOMS) DEFAULT_DONOR_ATOMS =
      set_dative_bonds g DEFAULT_DONOR_ATOMS := by
  constructor
  · intro h
    simp only [noMetalDonorBond, List.all_eq_true, Bool.not_eq_true'] at h
    simp only [set_dative_bonds]
    have : g.bonds.map (convertBondToDative g.atomicNum DEFAULT_DONOR_ATOMS) = g.bonds := by
      conv_rhs => rw [← List.map_id g.bonds]
      exact List.map_congr_left (fun b hb => convertBondToDative_not_touched (h b hb))
    rw [this]
  · simp only [set_dative_bonds, List.map_map]
    congr 1
    exact List.map_congr_left (fun b _ => convertBondToDative_idem g.atomicNum b)

/-- Witness for C6: a two-carbon graph with a single bond has no metal-donor
bond and is left unchanged by `set_dative_bonds`. -/
theorem c6_witness :
    noMetalDonorBond ⟨[6, 6], [⟨0, 1, .single⟩]⟩ DEFAULT_DONOR_ATOMS = true ∧
    set_dative_bonds ⟨[6, 6], [⟨0, 1, .single⟩]⟩ DEFAULT_DONOR_ATOMS =
      ⟨[6, 6], [⟨0, 1, .single⟩]⟩ :=
  ⟨by decide, (c6_set_dative_bonds_noop_and_idem ⟨[6, 6], [⟨0, 1, .single⟩]⟩).1 (by decide)⟩

theorem reSubAux_no_match (step : List Char → Option (List Char × List Char)) :
    ∀ (n : Nat) (l : List Char), hasMatch step l = false → reSubAux step n l = l := by
  intro n
  induction n with
  | zero => intro l _; rfl
  | succ n ih =>
    intro l h
    cases l with
    | nil => rfl
    | cons c cs =>
      rw [hasMatch, Bool.or_eq_false_iff] at h
      have hnone : step (c :: cs) = none := by
        cases hs : step (c :: cs) with
        | none => rfl
        | some v => rw [hs] at h; simp at h
      rw [reSubAux, hnone, ih cs h.2]

/-- Claim C7: `clean_smiles` is exactly the two ordered substitutions, and a
string containing neither pattern is returned unchanged. -/
theorem c7_clean_smiles_order_and_fixed (s : List Char) :
    clean_smiles s = sub2 (sub1 s) ∧
      (hasPat1 s = false → hasPat2 s = false → clean_smiles s = s) := by
  refine ⟨rfl, fun h1 h2 => ?_⟩
  have e1 : sub1 s = s := reSubAux_no_match matchAt1 s.length s h1
  rw [clean_smiles, e1]
  exact reSubAux_no_match matchAt2 s.length s h2

/-- Witness for C7: the plain SMILES string `CCO` contains neither pattern
and is returned unchanged by `clean_smiles`. -/
theorem c7_witness :
    hasPat1 ['C', 'C', 'O'] = false ∧ hasPat2 ['C', 'C', 'O'] = false ∧
      clean_smiles ['C', 'C', 'O'] = ['C', 'C', 'O'] :=
  ⟨by decide, by decide,
    (c7_clean_smiles_order_and_fixed ['C', 'C', 'O']).2 (by decide) (by decide)⟩

theorem maskSelect_length :
    ∀ (v : List ℚ) (m : List Bool), v.length = m.length →
      (maskSelect v m).length = m.count true := by
  intro v
  induction v with
  | nil =>
    intro m h
    cases m with
    | nil => rfl
    | cons b bs => simp at h
  | cons x xs ih =>
    intro m h
    cases m with
    | nil => simp at h
    | cons b bs =>
      simp only [List.length_cons, Nat.succ.injEq] at h
      cases b with
      | true => simp [maskSelect, ih bs h, List.count_cons]
      | false => simp [maskSelect, ih bs h, List.count_cons]

theorem maskSelect_spec :
    ∀ (m : List Bool) (v : List ℚ), v.length = m.length →
      maskSelect v m =
        ((List.range m.length).filter (fun i => m.getD i false)).map
          (fun i => v.getD i 0) := by
  intro m
  induction m with
  | nil =>
    intro v h
    cases v with
    | nil => rfl
    | cons x xs => simp at h
  | cons b bs ih =>
    intro v h
    cases v with
    | nil => simp at h
    | cons x xs =>
      simp only [List.length_cons, Nat.succ.injEq] at h
      rw [List.length_cons, List.range_succ_eq_map]
      rw [List.filter_cons]
      simp only [List.getD_cons_zero, List.filter_map, List.map_map]
      have hcomp :
          ((fun i => (b :: bs).getD i false) ∘ Nat.succ) = fun i => bs.getD i false := by
        funext i
        simp
      have hcomp2 :
          ((fun i => (x :: xs).getD i 0) ∘ Nat.succ) = fun i => xs.getD i 0 := by
        funext i
        simp
      rw [hcomp]
      cases b with
      | true =>
        rw [maskSelect, if_pos rfl, ih xs h]
        simp [hcomp2]
      | false =>
        rw [maskSelect, if_neg (by simp), ih xs h]
        simp [hcomp2]

theorem parseAll_ok_of_all_some (pf : List Char → Option ℚ) :
    ∀ ts : List (List Char), (∀ t ∈ ts, (pf t).isSome = true) →
      parseAll pf ts = .ok (ts.filterMap pf) := by
  intro ts
  induction ts with
  | nil => intro _; rfl
  | cons t ts ih =>
    intro h
    have ht : (pf t).isSome = true := h t (List.mem_cons_self t ts)
    obtain ⟨v, hv⟩ := Option.isSome_iff_exists.mp ht
    rw [parseAll, hv, ih (fun x hx => h x (List.mem_cons_of_mem t hx))]
    simp [List.filterMap_cons, hv]

theorem parseAll_error_kind (pf : List Char → Option ℚ) :
    ∀ (ts : List (List Char)) (e : Err), parseAll pf ts = .error e → e = .invalidInput := by
  intro ts
  induction ts with
  | nil =>
    intro e h
    exact Except.noConfusion h
  | cons t ts ih =>
    intro e h
    cases hv : pf t with
    | none =>
      simp only [parseAll, hv] at h
      injection h with h
      exact h.symm
    | some v =>
      simp only [parseAll, hv] at h
      cases hrec : parseAll pf ts with
      | error e2 =>
        rw [hrec] at h
        injection h with h
        rw [← h]
        exact ih e2 hrec
      | ok vs =>
        rw [hrec] at h
        exact Except.noConfusion h

theorem parseAll_ok_length (pf : List Char → Option ℚ) :
    ∀ (ts : List (List Char)) (vs : List ℚ), parseAll pf ts = .ok vs →
      vs.length = ts.length := by
  intro ts
  induction ts with
  | nil =>
    intro vs h
    injection h with h
    rw [← h]
    rfl
  | cons t ts ih =>
    intro vs h
    cases hv : pf t with
    | none =>
      simp only [parseAll, hv] at h
      exact Except.noConfusion h
    | some v =>
      simp only [parseAll, hv] at h
      cases hrec : parseAll pf ts with
      | error e =>
        rw [hrec] at h
        exact Except.noConfusion h
      | ok ws =>
        rw [hrec] at h
        injection h with h
        rw [← h, List.length_cons, ih ws hrec]
        rfl

theorem parseAll_error_iff (pf : List Char → Option ℚ) :
    ∀ ts : List (List Char),
      (parseAll pf ts = .error .invalidInput ↔ ∃ t ∈ ts, pf t = none) := by
  intro ts
  induction ts with
  | nil => simp [parseAll]
  | cons t ts ih =>
    cases hv : pf t with
    | none =>
      simp only [parseAll, hv]
      constructor
      · intro _
        exact ⟨t, List.mem_cons_self t ts, hv⟩
      · intro _
        trivial
    | some v =>
      simp only [parseAll, hv]
      cases hrec : parseAll pf ts with
      | error e =>
        have he := parseAll_error_kind pf ts e hrec
        subst he
        constructor
        · intro _
          obtain ⟨x, hx, hn⟩ := ih.mp hrec
          exact ⟨x, List.mem_cons_of_mem t hx, hn⟩
        · intro _
          trivial
      | ok vs =>
        constructor
        · intro hcontra
          exact absurd hcontra (by simp)
        · rintro ⟨x, hx, hn⟩
          rcases List.mem_cons.mp hx with hx | hx
          · subst hx
            rw [hv] at hn
            exact Option.noConfusion hn
          · have hcontra := ih.mpr ⟨x, hx, hn⟩
            rw [hrec] at hcontra
            exact absurd hcontra (by simp)

/-- Claim C9: `_parse_features` returns exactly the parsed values of the
whitespace-separated tokens after dropping the first two; a line with two or
fewer tokens yields the empty feature list without raising; and
`InvalidInput` is raised if and only if a kept token fails to parse. -/
theorem c9_parse_features_contract (pf : List Char → Option ℚ) (line : List Char) :
    ((pySplitWs line).length ≤ 2 → parse_features pf line = .ok []) ∧
    (parse_features pf line = .error .invalidInput ↔
      ∃ t ∈ (pySplitWs line).drop 2, pf t = none) ∧
    ((∀ t ∈ (pySplitWs line).drop 2, (pf t).isSome = true) →
      parse_features pf line = .ok (((pySplitWs line).drop 2).filterMap pf)) := by
  refine ⟨fun h => ?_, ?_, fun h => ?_⟩
  · rw [parse_features, List.drop_eq_nil_iff.mpr h]
    rfl
  · rw [parse_features]
    exact parseAll_error_iff pf ((pySplitWs line).drop 2)
  · rw [parse_features]
    exact parseAll_ok_of_all_some pf ((pySplitWs line).drop 2) h

/-- Witness for C9, at the concrete lines `"a b"` (two tokens, empty result)
and `"a b 1"` (three tokens, one kept and parsed). -/
theorem c9_witness :
    ((pySplitWs ['a', ' ', 'b']).length ≤ 2 ∧
      parse_features parseStub ['a', ' ', 'b'] = .ok []) ∧
    ((∀ t ∈ (pySplitWs ['a', ' ', 'b', ' ', '1']).drop 2, (parseStub t).isSome = true) ∧
      parse_features parseStub ['a', ' ', 'b', ' ', '1'] =
        .ok (((pySplitWs ['a', ' ', 'b', ' ', '1']).drop 2).filterMap parseStub)) :=
  ⟨⟨by decide, (c9_parse_features_contract parseStub ['a', ' ', 'b']).1 (by decide)⟩,
   ⟨by decide,
    (c9_parse_features_contract parseStub ['a', ' ', 'b', ' ', '1']).2.2 (by decide)⟩⟩

/-- Amended claim C2: records with fewer than 3 lines raise `InvalidInput`,
and every error this validation phase raises is `InvalidInput`; but a record
whose `$$$$` terminator is absent does not raise — when the feature line
parses, the entire remainder becomes the MOL block and is passed downstream
(`InvalidInput` for the structural block arises only when the collected
block is empty). -/
theorem c2_predict_from_file_input_contract (pf : List Char → Option ℚ)
    (lines : List (List Char)) :
    (lines.length < 3 → predict_from_file_input pf lines = .error .invalidInput) ∧
    (∀ e, predict_from_file_input pf lines = .error e → e = .invalidInput) ∧
    (3 ≤ lines.length →
      (∀ l ∈ lines.drop 2, pyStrip l ≠ dollarTerminator) →
      ∀ fs, parse_features pf (lines.getD 1 []) = .ok fs →
        predict_from_file_input pf lines = .ok (fs, (lines.drop 2).flatten)) := by
  refine ⟨fun h => ?_, fun e h => ?_, fun h3 hterm fs hfs => ?_⟩
  · rw [predict_from_file_input, if_pos h]
  · rw [predict_from_file_input] at h
    by_cases hlen : lines.length < 3
    · rw [if_pos hlen] at h
      injection h with h
      exact h.symm
    · rw [if_neg hlen] at h
      cases hparse : parse_features pf (lines.getD 1 []) with
      | error e2 =>
        rw [hparse] at h
        injection h with h
        rw [← h]
        exact parseAll_error_kind pf _ e2 hparse
      | ok fs =>
        rw [hparse] at h
        cases hext : extract_mol_block (lines.drop 2) with
        | error e2 =>
          rw [hext] at h
          injection h with h
          rw [← h]
          rw [extract_mol_block] at hext
          by_cases hemp : (lines.drop 2).takeWhile
              (fun l => !(pyStrip l == dollarTerminator)) |>.isEmpty
          · rw [if_pos hemp] at hext
            injection hext with hext
            exact hext.symm
          · rw [if_neg hemp] at hext
            exact Except.noConfusion hext
        | ok mol =>
          rw [hext] at h
          exact Except.noConfusion h
  · have htake : (lines.drop 2).takeWhile (fun l => !(pyStrip l == dollarTerminator)) =
        lines.drop 2 := by
      rw [List.takeWhile_eq_self_iff]
      intro l hl
      simp only [Bool.not_eq_true']
      exact beq_eq_false_iff_ne.mpr (hterm l hl)
    have hne : (lines.drop 2) ≠ [] := by
      intro hc
      have := congrArg List.length hc
      simp only [List.length_drop, List.length_nil] at this
      omega
    rw [predict_from_file_input, if_neg (by omega), hfs]
    rw [extract_mol_block]
    simp only [htake]
    rw [if_neg (by simpa [List.isEmpty_iff] using hne)]

/-- Counterexample for C2 as stated: a record with three lines and no `$$$$`
terminator is not rejected with `InvalidInput` — the validation phase
succeeds, treating the whole remainder as the MOL block (so any failure it
causes arises downstream, as a molecular-processing or prediction-engine
error). -/
theorem c2_counterexample :
    predict_from_file_input parseStub [['h'], ['a', ' ', 'b'], ['C']] =
      .ok ([], ['C']) := rfl

/-- Witness for C2 (amended): a 1-line record is rejected with
`InvalidInput`; a 3-line record whose block lacks the `$$$$` terminator is
accepted with the whole remainder as MOL block. -/
theorem c2_witness :
    (([[]] : List (List Char)).length < 3 ∧
      predict_from_file_input parseStub [[]] = .error .invalidInput) ∧
    (3 ≤ ([['h'], ['a', ' ', 'b'], ['x']] : List (List Char)).length ∧
      (∀ l ∈ ([['h'], ['a', ' ', 'b'], ['x']] : List (List Char)).drop 2,
        pyStrip l ≠ dollarTerminator) ∧
      parse_features parseStub (([['h'], ['a', ' ', 'b'], ['x']] :
        List (List Char)).getD 1 []) = .ok [] ∧
      predict_from_file_input parseStub [['h'], ['a', ' ', 'b'], ['x']] =
        .ok ([], (([['h'], ['a', ' ', 'b'], ['x']] : List (List Char)).drop 2).flatten)) :=
  ⟨⟨by decide, (c2_predict_from_file_input_contract parseStub [[]]).1 (by decide)⟩,
   ⟨by decide, by decide, rfl,
    (c2_predict_from_file_input_contract parseStub
      [['h'], ['a', ' ', 'b'], ['x']]).2.2 (by decide) (by decide) [] rfl⟩⟩

/-- Claim C5: the mask is applied positionally — for an equal-length vector
and mask, the output is exactly the entries at the indices where the mask is
true, in ascending index order, and its length is the number of true entries
of the mask (`maskSelect` is a Lean function, hence deterministic and free
of side effects). -/
theorem c5_mask_application_positional (v : List ℚ) (m : List Bool)
    (h : v.length = m.length) :
    maskSelect v m =
        ((List.range m.length).filter (fun i => m.getD i false)).map
          (fun i => v.getD i 0) ∧
      (maskSelect v m).length = m.count true :=
  ⟨maskSelect_spec m v h, maskSelect_length v m h⟩

/-- Witness for C5 at a concrete vector and mask. -/
theorem c5_witness :
    ([(1 : ℚ), 2, 3].length = [true, false, true].length) ∧
    (maskSelect [(1 : ℚ), 2, 3] [true, false, true] =
        ((List.range [true, false, true].length).filter
          (fun i => [true, false, true].getD i false)).map
          (fun i => [(1 : ℚ), 2, 3].getD i 0) ∧
      (maskSelect [(1 : ℚ), 2, 3] [true, false, true]).length =
        [true, false, true].count true) :=
  ⟨rfl, c5_mask_application_positional [(1 : ℚ), 2, 3] [true, false, true] rfl⟩

/-- Amended claim C1: on every mask/vector length mismatch,
`_combine_features` does fail fast without truncating or padding, but with a
raw uncaught Python error rather than a domain configuration error (no
length check and no configuration-error kind exists in the code): when both
input lists are non-empty the numpy boolean-indexing `IndexError` escapes;
when either list is empty, `float('')` on the empty token produced by the
join/split round trip raises `ValueError` before the indexing is even
reached. -/
theorem c1_mask_mismatch_raises_raw_python_error (f d : List ℚ)
    (hlen : f.length + d.length ≠ FEATURE_MASK.length) :
    ((f.isEmpty || d.isEmpty) = true →
      combine_features f d = .error .pyValueError) ∧
    ((f.isEmpty || d.isEmpty) = false →
      combine_features f d = .error .pyIndexError) ∧
    Err.isDomainError .pyValueError = false ∧
    Err.isDomainError .pyIndexError = false := by
  refine ⟨fun hemp => ?_, fun hemp => ?_, rfl, rfl⟩
  · rw [combine_features, hemp, if_pos rfl]
  · have hL : (combinedFeatureVector f d).length = f.length + d.length := by
      simp [combinedFeatureVector]
    rw [combine_features, hemp, if_neg Bool.false_ne_true, numpyBoolIndex, if_neg]
    rw [hL]
    omega

/-- Counterexample for C1 as stated: with 9 scalar features and 40
descriptors (combined length 49 against the 50-entry mask) the assembler
raises the numpy `IndexError`, a raw non-domain error — not a configuration
error. -/
theorem c1_counterexample :
    combine_features (List.replicate 9 (0 : ℚ)) (List.replicate 40 (0 : ℚ)) =
        .error .pyIndexError ∧
      Err.isDomainError .pyIndexError = false :=
  ⟨rfl, rfl⟩

/-- Witness for C1 (amended), exercising both mismatch branches: an empty
scalar list with 40 descriptors (combined length 40, `ValueError`), and
one-element lists (combined length 2, `IndexError`). -/
theorem c1_witness :
    (([] : List ℚ).length + (List.replicate 40 (0 : ℚ)).length ≠
        FEATURE_MASK.length ∧
      (([] : List ℚ).isEmpty || (List.replicate 40 (0 : ℚ)).isEmpty) = true ∧
      combine_features [] (List.replicate 40 (0 : ℚ)) = .error .pyValueError) ∧
    ([(0 : ℚ)].length + [(1 : ℚ)].length ≠ FEATURE_MASK.length ∧
      ([(0 : ℚ)].isEmpty || [(1 : ℚ)].isEmpty) = false ∧
      combine_features [(0 : ℚ)] [(1 : ℚ)] = .error .pyIndexError ∧
      Err.isDomainError .pyValueError = false ∧
      Err.isDomainError .pyIndexError = false) :=
  ⟨⟨by decide, by decide,
    (c1_mask_mismatch_raises_raw_python_error [] (List.replicate 40 (0 : ℚ))
      (by decide)).1 (by decide)⟩,
   ⟨by decide, by decide,
    (c1_mask_mismatch_raises_raw_python_error [(0 : ℚ)] [(1 : ℚ)]
      (by decide)).2.1 (by decide),
    (c1_mask_mismatch_raises_raw_python_error [(0 : ℚ)] [(1 : ℚ)]
      (by decide)).2.2.1,
    (c1_mask_mismatch_raises_raw_python_error [(0 : ℚ)] [(1 : ℚ)]
      (by decide)).2.2.2⟩⟩

/-- Claim C4: the configured descriptor set has exactly 40 names, the
descriptor vector always has 40 entries in that fixed order, a feature line
with 12 tokens keeps 10 scalar features, and the CombinedFeatureVector then
has length exactly 50. -/
theorem c4_descriptor_and_combined_lengths :
    SELECTED_DESCRIPTORS.length = 40 ∧
    (∀ descFn : String → ℚ, (calculate_descriptors descFn).length = 40) ∧
    (∀ (pf : List Char → Option ℚ) (line : List Char) (fs : List ℚ),
      (pySplitWs line).length = 12 → parse_features pf line = .ok fs →
        fs.length = 10) ∧
    (∀ f d : List ℚ, f.length = 10 → d.length = 40 →
      (combinedFeatureVector f d).length = 50) := by
  refine ⟨rfl, fun descFn => ?_, fun pf line fs h12 hok => ?_, fun f d hf hd => ?_⟩
  · rw [calculate_descriptors, List.length_map]
    rfl
  · have hlen := parseAll_ok_length pf _ fs hok
    rw [List.length_drop, h12] at hlen
    exact hlen
  · simp [combinedFeatureVector, hf, hd]

/-- Witness for C4 at a concrete 12-token line and concrete vectors. -/
theorem c4_witness :
    ((pySplitWs c4_line).length = 12 ∧
      parse_features parseStub c4_line = .ok (List.replicate 10 (0 : ℚ)) ∧
      (List.replicate 10 (0 : ℚ)).length = 10) ∧
    ((List.replicate 10 (0 : ℚ)).length = 10 ∧
      (List.replicate 40 (0 : ℚ)).length = 40 ∧
      (combinedFeatureVector (List.replicate 10 (0 : ℚ))
        (List.replicate 40 (0 : ℚ))).length = 50) :=
  ⟨⟨by decide, rfl,
    c4_descriptor_and_combined_lengths.2.2.1 parseStub c4_line
      (List.replicate 10 (0 : ℚ)) (by decide) rfl⟩,
   ⟨by decide, by decide,
    c4_descriptor_and_combined_lengths.2.2.2 _ _ (by decide) (by decide)⟩⟩

/-- Claim C10: the fixed mask has 50 entries, exactly 21 of them true; the
features-CSV header names only 10 features; and for 10 scalar features and
40 descriptors the assembled (masked) vector written to the features file
has exactly 21 values. -/
theorem c10_feature_mask_and_masked_length :
    FEATURE_MASK.length = 50 ∧ FEATURE_MASK.count true = 21 ∧
    FEATURES_CSV_HEADER.length = 10 ∧
    (∀ f d : List ℚ, f.length = 10 → d.length = 40 →
      ∃ out, combine_features f d = .ok out ∧ out.length = 21) := by
  refine ⟨rfl, by decide, rfl, fun f d hf hd => ?_⟩
  have hfe : f.isEmpty = false := by
    cases f with
    | nil => simp at hf
    | cons a as => rfl
  have hde : d.isEmpty = false := by
    cases d with
    | nil => simp at hd
    | cons a as => rfl
  have hcond : (f.isEmpty || d.isEmpty) = false := by rw [hfe, hde]; rfl
  have hL : (combinedFeatureVector f d).length = 50 := by
    simp [combinedFeatureVector, hf, hd]
  have hml : FEATURE_MASK.length = (combinedFeatureVector f d).length := by
    rw [hL]
    rfl
  refine ⟨maskSelect (combinedFeatureVector f d) FEATURE_MASK, ?_, ?_⟩
  · rw [combine_features, hcond, if_neg Bool.false_ne_true, numpyBoolIndex,
      if_pos hml]
  · rw [maskSelect_length _ _ hml.symm]
    decide

/-- Witness for C10 at concrete vectors of lengths 10 and 40. -/
theorem c10_witness :
    (List.replicate 10 (1 : ℚ)).length = 10 ∧
    (List.replicate 40 (1 : ℚ)).length = 40 ∧
    ∃ out, combine_features (List.replicate 10 (1 : ℚ))
        (List.replicate 40 (1 : ℚ)) = .ok out ∧ out.length = 21 :=
  ⟨by decide, by decide,
   c10_feature_mask_and_masked_length.2.2.2 _ _ (by decide) (by decide)⟩

/-- Claim C8: every scalar feature is rounded by `round4` (Python's
`round(x, 4)`, whose documented rule rounds to the closest 4-decimal value
with ties to even; in particular `1.23456` becomes `1.2346`), while
descriptor entries pass into the CombinedFeatureVector unrounded. -/
theorem c8_scalar_rounding (f d : List ℚ) (i j : Nat) :
    round4 (1.23456 : ℚ) = 1.2346 ∧
    (i < f.length → (combinedFeatureVector f d).getD i 0 = round4 (f.getD i 0)) ∧
    (j < d.length →
      (combinedFeatureVector f d).getD (f.length + j) 0 = d.getD j 0) := by
  refine ⟨?_, fun hi => ?_, fun hj => ?_⟩
  · have hn : (1.23456 : ℚ).num = 3858 := by norm_num
    have hden : ((1.23456 : ℚ).den : ℤ) = 3125 := by norm_num
    simp only [round4, hn, hden]
    norm_num
  · have hi' : i < (f.map round4).length := by simpa using hi
    rw [combinedFeatureVector, List.getD_append _ _ _ _ hi']
    rw [List.getD_eq_getElem _ _ hi', List.getD_eq_getElem _ _ hi]
    simp
  · rw [combinedFeatureVector, List.getD_append_right]
    · have hidx : f.length + j - (f.map round4).length = j := by simp
      rw [hidx]
    · simp

/-- Witness for C8 at concrete one-element vectors. -/
theorem c8_witness :
    (0 < [(2 : ℚ)].length ∧
      (combinedFeatureVector [(2 : ℚ)] [(3 : ℚ)]).getD 0 0 =
        round4 ([(2 : ℚ)].getD 0 0)) ∧
    (0 < [(3 : ℚ)].length ∧
      (combinedFeatureVector [(2 : ℚ)] [(3 : ℚ)]).getD ([(2 : ℚ)].length + 0) 0 =
        [(3 : ℚ)].getD 0 0) :=
  ⟨⟨by decide, (c8_scalar_rounding [(2 : ℚ)] [(3 : ℚ)] 0 0).2.1 (by decide)⟩,
   ⟨by decide, (c8_scalar_rounding [(2 : ℚ)] [(3 : ℚ)] 0 0).2.2 (by decide)⟩⟩

